import Mathlib

/-!
Verification of the UIGS graph-engine core (claim extraction, credential
decomposition, conflict detection, issuer/type derivation, OIDC
normalization) against its natural-language specification.

The Python source is shallowly embedded: JSON-like Python values become the
mutual inductive `Value` / `ValueList` / `ValueDict` (a `dict` is an
insertion-ordered association list, matching Python 3.7+ dict semantics);
Python `str(...)` becomes `pyStr` / `pyRepr`; Python truthiness becomes
`Value.isTruthy`; graph-store calls become pure state threading or explicit
query-result inputs; `uuid`/`randomUUID` id generation and wall-clock
timestamps become injected parameters; the float confidence `1.0` is
modelled by the natural number `1` (it is only ever the constant 1.0 in the
embedded code paths).
-/

namespace UIGS

/- Python JSON-like values as found in event payloads and credential
subjects: `None`, `bool`, `int`, `str`, `list`, `dict` (insertion ordered). -/
mutual
inductive Value : Type where
  | null : Value
  | bool : Bool → Value
  | int : Int → Value
  | str : String → Value
  | list : ValueList → Value
  | dict : ValueDict → Value

inductive ValueList : Type where
  | nil : ValueList
  | cons : Value → ValueList → ValueList

inductive ValueDict : Type where
  | nil : ValueDict
  | cons : String → Value → ValueDict → ValueDict
end

/- Python `repr(...)` on embedded values (used by `str` on containers).
String escaping inside `repr` of a string is not modelled; no theorem below
depends on strings containing quote characters. -/
mutual
def pyRepr : Value → String
  | .null => "None"
  | .bool true => "True"
  | .bool false => "False"
  | .int n => toString n
  | .str s => "'" ++ s ++ "'"
  | .list xs => "[" ++ pyReprList xs ++ "]"
  | .dict kvs => "\x7b" ++ pyReprDict kvs ++ "\x7d"

def pyReprList : ValueList → String
  | .nil => ""
  | .cons v .nil => pyRepr v
  | .cons v rest => pyRepr v ++ ", " ++ pyReprList rest

def pyReprDict : ValueDict → String
  | .nil => ""
  | .cons k v .nil => "'" ++ k ++ "': " ++ pyRepr v
  | .cons k v rest => "'" ++ k ++ "': " ++ pyRepr v ++ ", " ++ pyReprDict rest
end

/-- Python `str(...)`: identity on strings, `repr` otherwise. -/
def pyStr : Value → String
  | .str s => s
  | .null => pyRepr .null
  | .bool b => pyRepr (.bool b)
  | .int n => pyRepr (.int n)
  | .list xs => pyRepr (.list xs)
  | .dict kvs => pyRepr (.dict kvs)

/-- Python truthiness of an embedded value. -/
def Value.isTruthy : Value → Bool
  | .null => false
  | .bool b => b
  | .int n => n != 0
  | .str s => s != ""
  | .list .nil => false
  | .list (.cons _ _) => true
  | .dict .nil => false
  | .dict (.cons _ _ _) => true

/-- Python `d.get(key)` on a dict: the value at the first matching key. -/
def ValueDict.get : ValueDict → String → Option Value
  | .nil, _ => none
  | .cons k v rest, key => if k = key then some v else ValueDict.get rest key

/-- View of a dict as a list of key-value pairs, in insertion order. -/
def ValueDict.toList : ValueDict → List (String × Value)
  | .nil => []
  | .cons k v rest => (k, v) :: rest.toList

/-- Build a dict from a list of key-value pairs, preserving order. -/
def ValueDict.ofList : List (String × Value) → ValueDict
  | [] => .nil
  | (k, v) :: rest => .cons k v (ValueDict.ofList rest)

/-- Does a value have container shape (`dict` or `list`)? Mirrors the
`isinstance(value, dict)` / `isinstance(value, list)` tests in
`_extract_claims`. -/
def Value.isContainer : Value → Bool
  | .dict _ => true
  | .list _ => true
  | _ => false

/-- The dot-joined key `f"{pre}.{key}" if pre else key` from
`CredentialDecomposer._extract_claims`. -/
def joinKey (pre key : String) : String :=
  if pre = "" then key else pre ++ "." ++ key

/- Embedding of `CredentialDecomposer._extract_claims`: recursively flatten
a credential subject into (dot-joined path, value) pairs; dicts are recursed
into, lists are stringified whole, atomic values pass through. -/
mutual
def extractOne (fullKey : String) : Value → List (String × Value)
  | .dict kvs => extractDict fullKey kvs
  | .list xs => [(fullKey, Value.str (pyStr (.list xs)))]
  | v => [(fullKey, v)]

def extractDict (pre : String) : ValueDict → List (String × Value)
  | .nil => []
  | .cons k v rest => extractOne (joinKey pre k) v ++ extractDict pre rest
end

/-- Top-level `_extract_claims(credential_subject)` (default empty path). -/
def extract_claims (credential_subject : ValueDict) : List (String × Value) :=
  extractDict "" credential_subject

/-- Embedding of the `VerifiableCredential` dataclass
(`app/models/credential.py`). The `issuer` field is `str | dict` in the
source but is populated from untyped JSON, so it is modelled as an arbitrary
`Value`; the methods below branch on its shape exactly as the
`isinstance` tests do. -/
structure VerifiableCredential where
  context : List String := []
  type : List String := []
  id : Option String := none
  issuer : Value := .str ""
  issuance_date : Option String := none
  expiration_date : Option String := none
  credential_subject : ValueDict := .nil

/-- Embedding of `VerifiableCredential.get_issuer_id`: a string issuer is
returned as-is; for a dict issuer, `issuer.get("id", str(issuer))`; any
other shape is stringified. -/
def get_issuer_id (vc : VerifiableCredential) : Value :=
  match vc.issuer with
  | .str s => .str s
  | .dict kvs => (ValueDict.get kvs "id").getD (.str (pyStr (.dict kvs)))
  | v => .str (pyStr v)

/-- Embedding of `VerifiableCredential.get_issuer_name`: `issuer.get("name")`
for a dict issuer, `None` otherwise. -/
def get_issuer_name (vc : VerifiableCredential) : Option Value :=
  match vc.issuer with
  | .dict kvs => ValueDict.get kvs "name"
  | _ => none

/-- Embedding of `VerifiableCredential.get_credential_type`: filter out the
generic `"VerifiableCredential"` marker and take the first remaining type,
or the marker itself when none remains. -/
def get_credential_type (vc : VerifiableCredential) : String :=
  match vc.type.filter (fun t => t != "VerifiableCredential") with
  | [] => "VerifiableCredential"
  | t :: _ => t

/-- Embedding of the `ClaimNode` dataclass: node id (a uuid in the source,
injected here), attribute path, value, confidence (float `1.0` modelled as
`1`). -/
structure ClaimNode where
  node_id : String
  attr : String
  value : Value
  confidence : Nat := 1

/-- Embedding of the `CredentialNode` dataclass together with the
`properties` entries set by `decompose` (`event_id`, `issuer_name`). The
issuance date is the result of the injected ISO-8601 parser, of abstract
result type `δ`. -/
structure CredentialNode (δ : Type) where
  node_id : String
  issuer : Value
  credential_type : String
  issuance_date : Option δ
  event_id : String
  issuer_name : Option Value

/-- Embedding of `DecompositionResult` (fields the embedded code populates:
`fragment_node` stays `None` in the source and is omitted). -/
structure DecompositionResult (δ : Type) where
  credential_node : CredentialNode δ
  claim_nodes : List ClaimNode
  edges_created : Nat
  conflicts_detected : Nat := 0

/-- The claim-creation loop of `CredentialDecomposer.decompose`: walk the
extracted (attribute, value) pairs in order, skip the `"id"` attribute,
create a `ClaimNode` (ids drawn from the injected supply at successive
indices) and count one SUPPORTS edge per created node. Returns the created
nodes, the edge count, and the next id index. -/
def decomposeLoop (ids : Nat → String) : List (String × Value) → Nat → List ClaimNode × Nat × Nat
  | [], i => ([], 0, i)
  | (attr, v) :: rest, i =>
    if attr = "id" then decomposeLoop ids rest i
    else
      let c : ClaimNode := { node_id := ids i, attr := attr, value := v }
      let r := decomposeLoop ids rest (i + 1)
      (c :: r.1, r.2.1 + 1, r.2.2)

/-- Embedding of `CredentialDecomposer.decompose`. External effects are made
explicit: `parseISO` is the injected `datetime.fromisoformat` (an ISO-8601
parser returning `none` on `ValueError`), `ids` supplies claim-node uuids,
`credId` is the credential node's uuid. The issuance-date string is parsed
only when truthy (non-`None`, non-empty), after replacing `"Z"` with
`"+00:00"`; a failed parse leaves the date absent and does not abort. -/
def decompose {δ : Type} (parseISO : String → Option δ) (ids : Nat → String)
    (credId : String) (vc : VerifiableCredential) (user_id event_id : String) :
    DecompositionResult δ :=
  let issuance : Option δ :=
    match vc.issuance_date with
    | some s => if s = "" then none else parseISO (String.replace s "Z" "+00:00")
    | none => none
  let credential_node : CredentialNode δ :=
    { node_id := credId
      issuer := get_issuer_id vc
      credential_type := get_credential_type vc
      issuance_date := issuance
      event_id := event_id
      issuer_name := get_issuer_name vc }
  let r := decomposeLoop ids (extract_claims vc.credential_subject) 0
  { credential_node := credential_node
    claim_nodes := r.1
    edges_created := r.2.1 }

/-- A row returned by `Neo4jClient.find_existing_claims`
(`RETURN c.node_id AS node_id, c.attribute AS attribute, c.value AS value`):
all three keys are always present; a claim stored without a value yields a
null `value`, modelled as `Value.null`. -/
structure ExistingClaimRecord where
  node_id : String
  attr : String
  value : Value

/-- A CONTRADICTS edge as created by `create_contradicts_edge`; edge ids
(`randomUUID()` in the store) are modelled as successive counter values.
The float confidence `1.0` is modelled as `1`. -/
structure ContradictsEdge where
  edge_id : Nat
  claim_a_id : String
  claim_b_id : String
  confidence : Nat

/-- Embedding of the `Conflict` dataclass; `detected_at`
(`datetime.utcnow()`) is an injected clock value. -/
structure Conflict where
  conflict_id : Nat
  attr : String
  claim_a : ClaimNode
  claim_b : ClaimNode
  detected_at : Nat

/-- The stringification applied to the new claim's value in
`detect_conflicts`: `str(new_claim.value) if new_claim.value else ""`
(Python truthiness, not a `None` test). -/
def newClaimValueStr (v : Value) : String :=
  if v.isTruthy then pyStr v else ""

/-- The inner loop of `ConflictDetector.detect_conflicts` for one new claim
over the rows returned by `find_existing_claims`: skip rows whose node id
equals the new claim's id; otherwise compare
`str(existing_claim.get("value", ""))` with the new claim's stringified
value and, when they differ, create a CONTRADICTS edge (confidence 1) and a
`Conflict` record. `now` is the injected clock, `k` the edge-id counter. -/
def detectForClaim (now : Nat) (nc : ClaimNode) :
    List ExistingClaimRecord → Nat → List ContradictsEdge × List Conflict × Nat
  | [], k => ([], [], k)
  | ec :: rest, k =>
    if ec.node_id = nc.node_id then detectForClaim now nc rest k
    else
      let existing_value := pyStr ec.value
      let new_value := newClaimValueStr nc.value
      if existing_value ≠ new_value then
        let edge : ContradictsEdge :=
          { edge_id := k, claim_a_id := nc.node_id, claim_b_id := ec.node_id, confidence := 1 }
        let conflict : Conflict :=
          { conflict_id := k
            attr := nc.attr
            claim_a := nc
            claim_b := { node_id := ec.node_id, attr := ec.attr, value := ec.value }
            detected_at := now }
        let r := detectForClaim now nc rest (k + 1)
        (edge :: r.1, conflict :: r.2.1, r.2.2)
      else detectForClaim now nc rest k

/-- Embedding of `ConflictDetector.detect_conflicts`: for each new claim in
order, fetch the existing claims for its attribute (`query` stands for
`find_existing_claims user_id attribute`) and run the comparison loop,
accumulating edges and conflicts. -/
def detect_conflicts (now : Nat) (query : String → List ExistingClaimRecord) :
    List ClaimNode → Nat → List ContradictsEdge × List Conflict × Nat
  | [], k => ([], [], k)
  | nc :: rest, k =>
    let r1 := detectForClaim now nc (query nc.attr) k
    let r2 := detect_conflicts now query rest r1.2.2
    (r1.1 ++ r2.1, r1.2.1 ++ r2.2.1, r2.2.2)

/-- Embedding of `ConflictDetector.resolve_conflict`: the body only logs and
returns `True`; no graph-store call is made, so over any graph-store state
type `σ` it is the identity on the state paired with `true`. -/
def resolve_conflict {σ : Type} (conflict_id preferred_claim_id : String) (g : σ) :
    Bool × σ :=
  (true, g)

/-- The Python identity test `v is None` on an embedded value. -/
def Value.isNull : Value → Bool
  | .null => true
  | _ => false

/-- Python `payload.get(k)` (no default): the stored value, or `None` when
the key is absent. -/
def oidcGet (payload : ValueDict) (k : String) : Value :=
  (payload.get k).getD .null

/-- The ordered `credentialSubject` mapping built by
`RabbitMQConsumer._process_oidc` before `None`-filtering, with the OIDC
`sub` field mapped to the subject-identifier key `"id"`. -/
def oidcSubjectPairs (payload : ValueDict) : List (String × Value) :=
  [("id", oidcGet payload "sub"),
   ("email", oidcGet payload "email"),
   ("name", oidcGet payload "name"),
   ("given_name", oidcGet payload "given_name"),
   ("family_name", oidcGet payload "family_name"),
   ("picture", oidcGet payload "picture")]

/-- Embedding of the `vc_payload` document built by
`RabbitMQConsumer._process_oidc`: issuer is `payload.get("iss", "unknown")`,
issuance date is `payload.get("timestamp", "")`, and the credential subject
keeps exactly the pairs whose value `is not None`. The construction is a
pure function of the payload. -/
def normalizeOIDC (payload : ValueDict) : List (String × Value) :=
  [("@context", Value.list (.cons (.str "https://www.w3.org/2018/credentials/v1") .nil)),
   ("type", Value.list (.cons (.str "VerifiableCredential") (.cons (.str "OIDCCredential") .nil))),
   ("issuer", (payload.get "iss").getD (.str "unknown")),
   ("issuanceDate", (payload.get "timestamp").getD (.str "")),
   ("credentialSubject",
     Value.dict (ValueDict.ofList
       ((oidcSubjectPairs payload).filter (fun kv => !(Value.isNull kv.2)))))]

/-- Lookup in an association-list document (first matching key), used to
read fields off the `vc_payload` document built by `normalizeOIDC`. -/
def lget (l : List (String × Value)) (k : String) : Option Value :=
  (l.find? (fun kv => kv.1 == k)).map Prod.snd

/-! ## Helper lemmas -/

/-- The edge counter of the decomposition loop always equals the number of
claim nodes it created. -/
theorem decomposeLoop_edges_eq_length (ids : Nat → String) :
    ∀ (l : List (String × Value)) (i : Nat),
      (decomposeLoop ids l i).2.1 = (decomposeLoop ids l i).1.length := by
  intro l
  induction l with
  | nil => intro i; rfl
  | cons hd tl ih =>
    intro i
    obtain ⟨attr, v⟩ := hd
    by_cases h : attr = "id"
    · simp [decomposeLoop, h, ih]
    · simp [decomposeLoop, h, ih]

/-- Head-of-filter equals first-element-found: the `filter`+`[0]` pattern in
`get_credential_type` computes the first list element satisfying the
predicate. -/
theorem headD_filter_eq_find (p : String → Bool) (d : String) :
    ∀ l : List String, (l.filter p).headD d = (l.find? p).getD d := by
  intro l
  induction l with
  | nil => rfl
  | cons hd tl ih =>
    by_cases h : p hd
    · simp [List.filter_cons, List.find?_cons, h]
    · simp [List.filter_cons, List.find?_cons, h, ih]

/-- `get_credential_type` as head-with-default of the filtered type list. -/
theorem get_credential_type_eq_headD (vc : VerifiableCredential) :
    get_credential_type vc
      = (vc.type.filter (fun t => t != "VerifiableCredential")).headD "VerifiableCredential" := by
  unfold get_credential_type
  cases vc.type.filter (fun t => t != "VerifiableCredential") <;> rfl

/-- Round trip between a pair list and the dict built from it. -/
theorem ValueDict.toList_ofList :
    ∀ l : List (String × Value), (ValueDict.ofList l).toList = l := by
  intro l
  induction l with
  | nil => rfl
  | cons hd tl ih => obtain ⟨k, v⟩ := hd; simp [ValueDict.ofList, ValueDict.toList, ih]

/-- Every conflict produced by the inner detection loop has the new claim as
`claim_a` and an existing node id different from the new claim's id, and
likewise for the produced CONTRADICTS edges. -/
theorem detectForClaim_ids (now : Nat) (nc : ClaimNode) :
    ∀ (ecs : List ExistingClaimRecord) (k : Nat),
      (∀ c ∈ (detectForClaim now nc ecs k).2.1,
         c.claim_a = nc ∧ c.claim_b.node_id ≠ nc.node_id)
      ∧ (∀ e ∈ (detectForClaim now nc ecs k).1,
         e.claim_a_id = nc.node_id ∧ e.claim_b_id ≠ nc.node_id) := by
  intro ecs
  induction ecs with
  | nil => intro k; exact ⟨fun c hc => absurd hc (List.not_mem_nil c), fun e he => absurd he (List.not_mem_nil e)⟩
  | cons ec rest ih =>
    intro k
    by_cases hid : ec.node_id = nc.node_id
    · simpa [detectForClaim, hid] using ih k
    · by_cases hval : pyStr ec.value ≠ newClaimValueStr nc.value
      · constructor
        · intro c hc
          simp only [detectForClaim, if_neg hid, if_pos hval, List.mem_cons] at hc
          rcases hc with hc | hc
          · subst hc; exact ⟨rfl, hid⟩
          · exact (ih (k + 1)).1 c hc
        · intro e he
          simp only [detectForClaim, if_neg hid, if_pos hval, List.mem_cons] at he
          rcases he with he | he
          · subst he; exact ⟨rfl, hid⟩
          · exact (ih (k + 1)).2 e he
      · simpa [detectForClaim, hid, hval] using ih k

/-- Lifting of `detectForClaim_ids` to the full detector run. -/
theorem detect_conflicts_ids (now : Nat) (query : String → List ExistingClaimRecord) :
    ∀ (ncs : List ClaimNode) (k : Nat),
      (∀ c ∈ (detect_conflicts now query ncs k).2.1,
         c.claim_b.node_id ≠ c.claim_a.node_id)
      ∧ (∀ e ∈ (detect_conflicts now query ncs k).1,
         e.claim_b_id ≠ e.claim_a_id) := by
  intro ncs
  induction ncs with
  | nil => intro k; exact ⟨fun c hc => absurd hc (List.not_mem_nil c), fun e he => absurd he (List.not_mem_nil e)⟩
  | cons nc rest ih =>
    intro k
    constructor
    · intro c hc
      simp only [detect_conflicts, List.mem_append] at hc
      rcases hc with hc | hc
      · obtain ⟨ha, hb⟩ := (detectForClaim_ids now nc (query nc.attr) k).1 c hc
        rw [ha]; exact hb
      · exact (ih _).1 c hc
    · intro e he
      simp only [detect_conflicts, List.mem_append] at he
      rcases he with he | he
      · obtain ⟨ha, hb⟩ := (detectForClaim_ids now nc (query nc.attr) k).2 e he
        rw [ha]; exact hb
      · exact (ih _).2 e he

/-! ## Claim theorems -/

/-- Claim C1 (code evaluated at the failing input): the claim asserts that a
missing/absent value is stringified to the empty string on both sides and
that identical values produce zero conflicts. The code stringifies the
existing side with `str(existing_claim.get("value", ""))`, which turns a
present-but-null stored value into `"None"`, while the new side
`str(new_claim.value) if new_claim.value else ""` turns the same null value
into `""`. So a new claim with value `None` against an existing claim row
with value null — identical values — yields one CONTRADICTS edge and one
Conflict, not zero: `detect_conflicts` is evaluated here at exactly that
input. -/
theorem claim_C1_identical_null_values_conflict :
    detect_conflicts 0 (fun _ => [{ node_id := "e1", attr := "name", value := .null }])
      [{ node_id := "n1", attr := "name", value := .null }] 0
    = ([{ edge_id := 0, claim_a_id := "n1", claim_b_id := "e1", confidence := 1 }],
       [{ conflict_id := 0, attr := "name",
          claim_a := { node_id := "n1", attr := "name", value := .null },
          claim_b := { node_id := "e1", attr := "name", value := .null },
          detected_at := 0 }],
       1) := rfl

/-- Claim C2: for every credential, subject and event, the decomposition
result counts exactly one SUPPORTS edge per claim node
(`edges_created = claim_nodes.length`); and on the spec's example subject
`{"id":"s1","name":"John Doe","email":"j@x.com","degree":{"type":"BS","name":"CS"}}`
it produces exactly the 4 claim nodes `name`, `email`, `degree.type`,
`degree.name` (with `id` excluded) and 4 edges. -/
theorem claim_C2_edges_equal_claims :
    (∀ (δ : Type) (parseISO : String → Option δ) (ids : Nat → String)
       (credId : String) (vc : VerifiableCredential) (uid eid : String),
       (decompose parseISO ids credId vc uid eid).edges_created
         = (decompose parseISO ids credId vc uid eid).claim_nodes.length)
    ∧ ((decompose (δ := Nat) (fun _ => none) (fun n => toString n) "cred1"
          { credential_subject := .cons "id" (.str "s1") (.cons "name" (.str "John Doe")
              (.cons "email" (.str "j@x.com")
                (.cons "degree" (.dict (.cons "type" (.str "BS")
                  (.cons "name" (.str "CS") .nil))) .nil))) }
          "s1" "ev1").claim_nodes.map ClaimNode.attr
        = ["name", "email", "degree.type", "degree.name"]
       ∧ (decompose (δ := Nat) (fun _ => none) (fun n => toString n) "cred1"
            { credential_subject := .cons "id" (.str "s1") (.cons "name" (.str "John Doe")
                (.cons "email" (.str "j@x.com")
                  (.cons "degree" (.dict (.cons "type" (.str "BS")
                    (.cons "name" (.str "CS") .nil))) .nil))) }
            "s1" "ev1").edges_created = 4) := by
  refine ⟨fun δ parseISO ids credId vc uid eid => ?_, rfl, rfl⟩
  exact decomposeLoop_edges_eq_length ids (extract_claims vc.credential_subject) 0

/-- Claim C3: the claim extractor flattens nested mappings depth-first in
insertion order with dot-joined paths, emits a list value as a single pair
holding its whole string representation, and passes atomic values through;
on `{"name":"Alice","address":{"city":"NY","country":"USA"}}` it yields
exactly `[("name","Alice"),("address.city","NY"),("address.country","USA")]`
in that order. -/
theorem claim_C3_extract_claims_flattening :
    extract_claims (.cons "name" (.str "Alice")
        (.cons "address" (.dict (.cons "city" (.str "NY")
          (.cons "country" (.str "USA") .nil))) .nil))
      = [("name", .str "Alice"), ("address.city", .str "NY"), ("address.country", .str "USA")]
    ∧ (∀ (pre k : String) (kvs : ValueDict) (rest : ValueDict),
        extractDict pre (.cons k (.dict kvs) rest)
          = extractDict (joinKey pre k) kvs ++ extractDict pre rest)
    ∧ (∀ (pre k : String) (xs : ValueList) (rest : ValueDict),
        extractDict pre (.cons k (.list xs) rest)
          = (joinKey pre k, Value.str (pyStr (.list xs))) :: extractDict pre rest)
    ∧ (∀ (pre k : String) (v : Value) (rest : ValueDict),
        Value.isContainer v = false →
        extractDict pre (.cons k v rest) = (joinKey pre k, v) :: extractDict pre rest) := by
  refine ⟨rfl, fun pre k kvs rest => rfl, fun pre k xs rest => rfl, fun pre k v rest hv => ?_⟩
  cases v with
  | null => rfl
  | bool b => rfl
  | int n => rfl
  | str s => rfl
  | list xs => exact absurd hv (by simp [Value.isContainer])
  | dict kvs => exact absurd hv (by simp [Value.isContainer])

/-- Witness for claim C3: the atomic-value clause evaluated at the concrete
pair `("age", 30)`. -/
theorem claim_C3_witness :
    Value.isContainer (Value.int 30) = false
    ∧ extractDict "" (.cons "age" (.int 30) .nil) = [("age", Value.int 30)] :=
  ⟨rfl, claim_C3_extract_claims_flattening.2.2.2 "" "age" (.int 30) .nil rfl⟩

/-- Claim C4: an existing-claims row whose node id equals the new claim's
node id is skipped entirely — removing it from the query result does not
change the detector's output, even when its stored value differs — and
consequently no CONTRADICTS edge and no Conflict ever pairs a claim with
itself. -/
theorem claim_C4_self_match_guard :
    (∀ (now : Nat) (nc : ClaimNode) (ec : ExistingClaimRecord)
       (rest : List ExistingClaimRecord) (k : Nat),
       ec.node_id = nc.node_id →
       detectForClaim now nc (ec :: rest) k = detectForClaim now nc rest k)
    ∧ (∀ (now : Nat) (query : String → List ExistingClaimRecord)
         (ncs : List ClaimNode) (k : Nat),
        (∀ c ∈ (detect_conflicts now query ncs k).2.1,
           c.claim_b.node_id ≠ c.claim_a.node_id)
        ∧ (∀ e ∈ (detect_conflicts now query ncs k).1,
           e.claim_b_id ≠ e.claim_a_id)) := by
  constructor
  · intro now nc ec rest k h
    simp [detectForClaim, h]
  · intro now query ncs k
    exact detect_conflicts_ids now query ncs k

/-- Witness for claim C4: a same-id row with a different stored value is
skipped: the run over it equals the run over no rows, which is empty. -/
theorem claim_C4_witness :
    detectForClaim 0 { node_id := "n1", attr := "name", value := .str "John" }
      [{ node_id := "n1", attr := "name", value := .str "Jane" }] 0
      = ([], [], 0)
    ∧ pyStr (Value.str "Jane") ≠ newClaimValueStr (Value.str "John") :=
  ⟨Eq.trans (claim_C4_self_match_guard.1 0
      { node_id := "n1", attr := "name", value := .str "John" }
      { node_id := "n1", attr := "name", value := .str "Jane" } [] 0 rfl) rfl,
   by decide⟩

/-- Claim C5: the most-specific credential type is the first element of the
type list different from `"VerifiableCredential"`, and the generic marker
itself when no such element exists (in particular for the empty list); the
spec's two examples evaluate accordingly. -/
theorem claim_C5_credential_type_selection :
    (∀ vc : VerifiableCredential,
       get_credential_type vc
         = (vc.type.find? (fun t => t != "VerifiableCredential")).getD "VerifiableCredential")
    ∧ get_credential_type { type := ["VerifiableCredential", "UniversityDegreeCredential"] }
        = "UniversityDegreeCredential"
    ∧ get_credential_type { type := ["VerifiableCredential"] } = "VerifiableCredential"
    ∧ get_credential_type { type := [] } = "VerifiableCredential" := by
  refine ⟨fun vc => ?_, rfl, rfl, rfl⟩
  rw [get_credential_type_eq_headD]
  exact headD_filter_eq_find _ _ vc.type

/-- Claim C6: for a dict-shaped issuer carrying `id` and `name`, issuer-id
extraction returns the `id` entry and issuer-name extraction returns the
`name` entry; for a bare-string issuer, issuer-id extraction returns that
string and issuer-name extraction returns `None`. -/
theorem claim_C6_issuer_extraction :
    (∀ (vc : VerifiableCredential) (kvs : ValueDict) (i n : Value),
       vc.issuer = .dict kvs →
       ValueDict.get kvs "id" = some i →
       ValueDict.get kvs "name" = some n →
       get_issuer_id vc = i ∧ get_issuer_name vc = some n)
    ∧ (∀ (vc : VerifiableCredential) (s : String),
       vc.issuer = .str s →
       get_issuer_id vc = .str s ∧ get_issuer_name vc = none) := by
  constructor
  · intro vc kvs i n hvc hid hname
    constructor
    · simp [get_issuer_id, hvc, hid]
    · simp [get_issuer_name, hvc, hname]
  · intro vc s hvc
    constructor
    · simp [get_issuer_id, hvc]
    · simp [get_issuer_name, hvc]

/-- Witness for claim C6: the spec's examples
`{"id":"did:x","name":"Example U"}` and the bare string `"did:y"`. -/
theorem claim_C6_witness :
    (get_issuer_id { issuer := .dict (.cons "id" (.str "did:x")
        (.cons "name" (.str "Example U") .nil)) } = .str "did:x"
     ∧ get_issuer_name { issuer := .dict (.cons "id" (.str "did:x")
        (.cons "name" (.str "Example U") .nil)) } = some (.str "Example U"))
    ∧ (get_issuer_id { issuer := .str "did:y" } = .str "did:y"
       ∧ get_issuer_name { issuer := .str "did:y" } = none) :=
  ⟨claim_C6_issuer_extraction.1
      { issuer := .dict (.cons "id" (.str "did:x") (.cons "name" (.str "Example U") .nil)) }
      (.cons "id" (.str "did:x") (.cons "name" (.str "Example U") .nil))
      (.str "did:x") (.str "Example U") rfl rfl rfl,
   claim_C6_issuer_extraction.2 { issuer := .str "did:y" } "did:y" rfl⟩

/-- Claim C7: when the credential supplies a (truthy) issuance-date string,
`decompose` feeds it to the ISO-8601 parser after replacing `"Z"` by
`"+00:00"`; when that parse fails, the operation does not fail — its result
equals the result of decomposing the same credential with no issuance date
at all (same Credential node, same claim nodes, same edge count), and the
Credential node's issuance date is absent. -/
theorem claim_C7_issuance_date_parse_failure :
    ∀ (δ : Type) (parseISO : String → Option δ) (ids : Nat → String)
      (credId : String) (vc : VerifiableCredential) (uid eid s : String),
      vc.issuance_date = some s → s ≠ "" →
      ((decompose parseISO ids credId vc uid eid).credential_node.issuance_date
         = parseISO (String.replace s "Z" "+00:00"))
      ∧ (parseISO (String.replace s "Z" "+00:00") = none →
          (decompose parseISO ids credId vc uid eid).credential_node.issuance_date = none
          ∧ decompose parseISO ids credId vc uid eid
              = decompose parseISO ids credId { vc with issuance_date := none } uid eid) := by
  intro δ parseISO ids credId vc uid eid s hdate hne
  constructor
  · simp [decompose, hdate, hne]
  · intro hfail
    constructor
    · simp [decompose, hdate, hne, hfail]
    · simp [decompose, get_issuer_id, get_issuer_name, get_credential_type,
        extract_claims, hdate, hne, hfail]

/-- Witness for claim C7: a parser rejecting everything, applied to the
unparseable date `"not-a-date"`. -/
theorem claim_C7_witness :
    (decompose (δ := Nat) (fun _ => none) (fun _ => "c0") "cr"
        { issuance_date := some "not-a-date",
          credential_subject := .cons "name" (.str "Alice") .nil }
        "u" "e").credential_node.issuance_date = none
    ∧ decompose (δ := Nat) (fun _ => none) (fun _ => "c0") "cr"
        { issuance_date := some "not-a-date",
          credential_subject := .cons "name" (.str "Alice") .nil }
        "u" "e"
      = decompose (δ := Nat) (fun _ => none) (fun _ => "c0") "cr"
          { issuance_date := none,
            credential_subject := .cons "name" (.str "Alice") .nil }
          "u" "e" :=
  (claim_C7_issuance_date_parse_failure Nat (fun _ => none) (fun _ => "c0") "cr"
      { issuance_date := some "not-a-date",
        credential_subject := .cons "name" (.str "Alice") .nil }
      "u" "e" "not-a-date" rfl (by decide)).2 rfl

/-- Claim C8: OIDC normalization produces a credential document whose
issuer is the payload's `iss` field (the literal `"unknown"` when `iss` is
absent), whose issuance date is the payload's `timestamp` field, and whose
credential subject holds exactly those of the six mapped fields
(`sub` mapped to the subject-identifier key `"id"`, plus `email`, `name`,
`given_name`, `family_name`, `picture`) whose values are present
(non-`None`); the construction `normalizeOIDC` is a pure function of the
payload, so the same payload always yields the same document. -/
theorem claim_C8_oidc_normalization :
    ∀ payload : ValueDict,
      (∀ i : Value, payload.get "iss" = some i →
         lget (normalizeOIDC payload) "issuer" = some i)
      ∧ (payload.get "iss" = none →
         lget (normalizeOIDC payload) "issuer" = some (.str "unknown"))
      ∧ (∀ t : Value, payload.get "timestamp" = some t →
         lget (normalizeOIDC payload) "issuanceDate" = some t)
      ∧ (∀ cs : ValueDict,
         lget (normalizeOIDC payload) "credentialSubject" = some (Value.dict cs) →
         ∀ (k : String) (v : Value),
           (k, v) ∈ cs.toList ↔
             (Value.isNull v = false
              ∧ ((k = "id" ∧ v = oidcGet payload "sub")
                 ∨ (k = "email" ∧ v = oidcGet payload "email")
                 ∨ (k = "name" ∧ v = oidcGet payload "name")
                 ∨ (k = "given_name" ∧ v = oidcGet payload "given_name")
                 ∨ (k = "family_name" ∧ v = oidcGet payload "family_name")
                 ∨ (k = "picture" ∧ v = oidcGet payload "picture")))) := by
  intro payload
  refine ⟨fun i hi => ?_, fun hi => ?_, fun t ht => ?_, fun cs hcs k v => ?_⟩
  · simp [normalizeOIDC, lget, List.find?, hi]
  · simp [normalizeOIDC, lget, List.find?, hi]
  · simp [normalizeOIDC, lget, List.find?, ht]
  · have hcs' : cs = ValueDict.ofList
        ((oidcSubjectPairs payload).filter (fun kv => !(Value.isNull kv.2))) := by
      simp [normalizeOIDC, lget, List.find?] at hcs
      exact hcs.symm
    subst hcs'
    rw [ValueDict.toList_ofList, List.mem_filter]
    simp only [oidcSubjectPairs, List.mem_cons, List.not_mem_nil, or_false,
      Prod.mk.injEq, Bool.not_eq_eq_eq_not, Bool.not_true]
    tauto

/-- Witness for claim C8: a payload with `iss`, `sub` and `timestamp`
present and the remaining OIDC fields absent. -/
theorem claim_C8_witness :
    lget (normalizeOIDC (.cons "iss" (.str "https://idp")
        (.cons "sub" (.str "u1") (.cons "timestamp" (.str "2024-01-01T00:00:00Z") .nil))))
      "issuer" = some (.str "https://idp")
    ∧ lget (normalizeOIDC (.cons "iss" (.str "https://idp")
        (.cons "sub" (.str "u1") (.cons "timestamp" (.str "2024-01-01T00:00:00Z") .nil))))
      "issuanceDate" = some (.str "2024-01-01T00:00:00Z")
    ∧ ("id", Value.str "u1") ∈ (ValueDict.cons "id" (.str "u1") .nil).toList :=
  ⟨(claim_C8_oidc_normalization (.cons "iss" (.str "https://idp")
        (.cons "sub" (.str "u1")
          (.cons "timestamp" (.str "2024-01-01T00:00:00Z") .nil)))).1
      (.str "https://idp") rfl,
   (claim_C8_oidc_normalization (.cons "iss" (.str "https://idp")
        (.cons "sub" (.str "u1")
          (.cons "timestamp" (.str "2024-01-01T00:00:00Z") .nil)))).2.2.1
      (.str "2024-01-01T00:00:00Z") rfl,
   ((claim_C8_oidc_normalization (.cons "iss" (.str "https://idp")
        (.cons "sub" (.str "u1")
          (.cons "timestamp" (.str "2024-01-01T00:00:00Z") .nil)))).2.2.2
      (.cons "id" (.str "u1") .nil) rfl "id" (.str "u1")).mpr
     ⟨rfl, Or.inl ⟨rfl, rfl⟩⟩⟩

/-- Claim C9: `resolve_conflict` reports success and mutates nothing — over
any graph-store state it returns `true` paired with the unchanged state
(the explicit not-yet-implemented no-op contract). -/
theorem claim_C9_resolve_conflict_noop :
    ∀ (σ : Type) (conflict_id preferred_claim_id : String) (g : σ),
      resolve_conflict conflict_id preferred_claim_id g = (true, g) :=
  fun _ _ _ _ => rfl

/-- Claim C10: issuer-id extraction is total with a silent fallback — for a
dict issuer lacking an `"id"` key it returns the string representation of
the whole issuer object rather than failing or returning an absent value. -/
theorem claim_C10_issuer_id_fallback :
    ∀ (vc : VerifiableCredential) (kvs : ValueDict),
      vc.issuer = .dict kvs →
      ValueDict.get kvs "id" = none →
      get_issuer_id vc = .str (pyStr (.dict kvs)) := by
  intro vc kvs hvc hid
  simp [get_issuer_id, hvc, hid]

/-- Witness for claim C10: issuer `{"name": "Example U"}` with no `id` key
falls back to the Python string form of the whole object. -/
theorem claim_C10_witness :
    ValueDict.get (.cons "name" (.str "Example U") .nil) "id" = none
    ∧ get_issuer_id { issuer := .dict (.cons "name" (.str "Example U") .nil) }
        = .str "\x7b'name': 'Example U'\x7d" :=
  ⟨rfl,
   Eq.trans (claim_C10_issuer_id_fallback
      { issuer := .dict (.cons "name" (.str "Example U") .nil) }
      (.cons "name" (.str "Example U") .nil) rfl rfl) rfl⟩

end UIGS
